import Mathlib

/-!
Verification development for the GOcontroll module management utility
(`src/main.rs`).  The definitions below are a shallow embedding of the
Rust source: machine integers are `Nat` with explicit `% 256` where u8
overflow matters, fallible operations return `Option`, SPI transfers are
passed in as `Option (List Nat)` replies (`none` models a transport
error), and a Rust panic (failed `unwrap` or out-of-bounds index) is an
explicit `panicked` outcome.  Buffers that the source mutates in place
(`tx_buf`, `rx_buf_escape`, the session `self`) are threaded as explicit
state.
-/

namespace GoModules

/-- Embedding of `calculate_checksum`: the 8-bit wrapping sum of
`message[0..length]`. -/
def calculate_checksum (message : List Nat) (length : Nat) : Nat :=
  (message.take length).foldl (fun a v => (a + v) % 256) 0

/-- Big-endian `u16::from_be_bytes` of two bytes. -/
def be16 (b0 b1 : Nat) : Nat := b0 * 256 + b1

/-- Big-endian `u32::from_be_bytes` of four bytes. -/
def be32 (b0 b1 b2 b3 : Nat) : Nat := ((b0 * 256 + b1) * 256 + b2) * 256 + b3

/-- Embedding of the `FirmwareVersion` struct: a 7-byte array
`[h0,h1,h2,h3,s0,s1,s2]`.  Well-formed values have length 7 with every
byte below 256; theorems state those bounds where they matter. -/
structure FirmwareVersion where
  firmware : List Nat
deriving DecidableEq

/-- Embedding of `FirmwareVersion::get_software`: bytes 4..7. -/
def FirmwareVersion.get_software (v : FirmwareVersion) : List Nat :=
  (v.firmware.drop 4).take 3

/-- Embedding of `FirmwareVersion::get_hardware`: bytes 0..4. -/
def FirmwareVersion.get_hardware (v : FirmwareVersion) : List Nat :=
  v.firmware.take 4

/-- Decimal rendering of a `u8` as produced by Rust `format!` (fuel-based
so that it is structural; fuel `n + 1` always suffices). -/
def natDecimalAux : Nat → Nat → List Char
  | 0, _ => []
  | fuel + 1, n =>
    if n < 10 then [Nat.digitChar n]
    else natDecimalAux fuel (n / 10) ++ [Nat.digitChar (n % 10)]

/-- Decimal rendering of a byte, the embedding of formatting a `u8` with
the `Display` trait. -/
def natDecimal (n : Nat) : List Char := natDecimalAux (n + 1) n

/-- Embedding of `FirmwareVersion::as_string`: the seven bytes joined
with dashes, as in the source `format!` call. -/
def FirmwareVersion.as_string (v : FirmwareVersion) : List Char :=
  natDecimal (v.firmware.getD 0 0) ++ '-' ::
  (natDecimal (v.firmware.getD 1 0) ++ '-' ::
  (natDecimal (v.firmware.getD 2 0) ++ '-' ::
  (natDecimal (v.firmware.getD 3 0) ++ '-' ::
  (natDecimal (v.firmware.getD 4 0) ++ '-' ::
  (natDecimal (v.firmware.getD 5 0) ++ '-' ::
  natDecimal (v.firmware.getD 6 0))))))

/-- Embedding of `FirmwareVersion::as_filename`: the string form with the
`.srec` extension appended. -/
def FirmwareVersion.as_filename (v : FirmwareVersion) : List Char :=
  v.as_string ++ ['.', 's', 'r', 'e', 'c']

/-- Value of a decimal ASCII digit. -/
def decDigitVal? (c : Char) : Option Nat :=
  if '0' ≤ c ∧ c ≤ '9' then some (c.toNat - 48) else none

/-- Value of a hexadecimal ASCII digit (`from_str_radix` with radix 16
accepts both cases). -/
def hexDigitVal? (c : Char) : Option Nat :=
  if '0' ≤ c ∧ c ≤ '9' then some (c.toNat - 48)
  else if 'a' ≤ c ∧ c ≤ 'f' then some (c.toNat - 87)
  else if 'A' ≤ c ∧ c ≤ 'F' then some (c.toNat - 55)
  else none

/-- Embedding of `str::parse::<u8>`: optional leading plus sign, at least
one decimal digit, checked accumulation failing above 255. -/
def parseDecU8 (s : List Char) : Option Nat :=
  let t := match s with
    | '+' :: r => r
    | _ => s
  match t with
  | [] => none
  | _ =>
    t.foldlM (fun acc c =>
      match decDigitVal? c with
      | none => none
      | some d => let v := acc * 10 + d; if 255 < v then none else some v) 0

/-- Embedding of `u8::from_str_radix(_, 16)`: optional leading plus sign,
at least one hex digit, checked accumulation failing above 255. -/
def parseHexU8 (s : List Char) : Option Nat :=
  let t := match s with
    | '+' :: r => r
    | _ => s
  match t with
  | [] => none
  | _ =>
    t.foldlM (fun acc c =>
      match hexDigitVal? c with
      | none => none
      | some d => let v := acc * 16 + d; if 255 < v then none else some v) 0

/-- Embedding of Rust `str::split(sep)`: splits at every occurrence of
the separator, keeping empty parts, always yielding at least one part. -/
def rustSplit (sep : Char) : List Char → List (List Char)
  | [] => [[]]
  | c :: cs =>
    if c = sep then [] :: rustSplit sep cs
    else
      match rustSplit sep cs with
      | [] => [[c]]
      | h :: t => (c :: h) :: t

/-- Loop body of `FirmwareVersion::from_filename`: writes the parsed
parts into the 7-byte array; fails if there are more than 7 parts
(`firmware.get_mut(i)?`, checked before parsing) or a part does not
parse as `u8`. -/
def fromPartsAux : List (List Char) → Nat → List Nat → Option (List Nat)
  | [], _, fw => some fw
  | p :: ps, i, fw =>
    if i < 7 then
      match parseDecU8 p with
      | some b => fromPartsAux ps (i + 1) (fw.set i b)
      | none => none
    else none

/-- Embedding of `FirmwareVersion::from_filename`: strip the extension at
the first dot, split on dashes, parse each part into the array. -/
def FirmwareVersion.from_filename (name : List Char) : Option FirmwareVersion :=
  let no_extension := (rustSplit '.' name).headD []
  let numbers := rustSplit '-' no_extension
  (fromPartsAux numbers 0 (List.replicate 7 0)).map (fun fw => ⟨fw⟩)

/-- Embedding of the `Ord` comparison `<` on Rust byte slices:
lexicographic, with a shorter strict prefix comparing below. -/
def sliceLt : List Nat → List Nat → Bool
  | [], [] => false
  | [], _ :: _ => true
  | _ :: _, [] => false
  | a :: as_, b :: bs =>
    if a < b then true
    else if b < a then false
    else sliceLt as_ bs

/-- Embedding of the `UploadError` enum. -/
inductive UploadError where
  | firmwareCorrupted (slot : Nat)
  | firmwareUntouched (slot : Nat)
deriving DecidableEq

/-- Embedding of the `Module` session struct.  The `spidev` and
`interrupt` handles are operating-system resources; their effects enter
the model as the reply parameters of the operations below. -/
structure Module where
  slot : Nat
  firmware : FirmwareVersion
  manufacturer : Nat
  qr_front : Nat
  qr_back : Nat
deriving DecidableEq

/-- Embedding of `Module::get_module_info`.  `dummyOk` is the outcome of
the initial dummy write, `reply` the identify exchange (`none` models a
transport error).  The reset pulse and sleeps only take time. -/
def Module.get_module_info (m : Module) (dummyOk : Bool) (reply : Option (List Nat)) :
    Option Module :=
  if dummyOk = false then none
  else
    match reply with
    | none => none
    | some rx =>
      if rx.getD 45 0 ≠ calculate_checksum rx 45 ∨ (rx.getD 0 0 ≠ 9 ∧ rx.getD 2 0 ≠ 9) then
        none
      else
        some { m with
          firmware := ⟨(rx.drop 6).take 7⟩,
          manufacturer := be32 (rx.getD 13 0) (rx.getD 14 0) (rx.getD 15 0) (rx.getD 16 0),
          qr_front := be32 (rx.getD 17 0) (rx.getD 18 0) (rx.getD 19 0) (rx.getD 20 0),
          qr_back := be32 (rx.getD 21 0) (rx.getD 22 0) (rx.getD 23 0) (rx.getD 24 0) }

/-- Embedding of `Iterator::reduce` with the comparison closure of
`update_module`: `none` on an empty iterator, otherwise the fold keeping
the element with the greater software version (first wins ties). -/
def reduceCandidates : List (Nat × List Nat) → Option (Nat × List Nat)
  | [] => none
  | x :: xs => some (xs.foldl (fun acc y => if sliceLt acc.2 y.2 then y else acc) x)

/-- Embedding of the candidate selection in `Module::update_module`: the
enumerate / filter / filter / map / reduce iterator chain, returning the
index and software version of the chosen candidate. -/
def select_update (firmwares : List FirmwareVersion) (cur : FirmwareVersion) :
    Option (Nat × List Nat) :=
  let step1 := firmwares.enum.filter (fun p => p.2.get_hardware == cur.get_hardware)
  let step2 := step1.filter (fun p =>
    (sliceLt cur.get_software p.2.get_software || cur.get_software == [255, 255, 255])
      && !(p.2.get_software == [255, 255, 255]))
  let mapped := step2.map (fun p => (p.1, p.2.get_software))
  reduceCandidates mapped

/-- Embedding of `Result<Result<Module, Module>, UploadError>` as
returned by `Module::update_module`. -/
inductive UpdateResult where
  | updated (m : Module)
  | noUpdate (m : Module)
  | failed (e : UploadError)
deriving DecidableEq

/-- Embedding of `Module::update_module`.  The upload engine is passed in
as `upload` (its SPI behaviour is modelled separately); the second
component of the result is the session state at the point of return
(explicit state passing for the moved-in `self`; `wipe_module_error`
only drives the SPI bus and changes no cached field). -/
def Module.update_module (m : Module) (firmwares : List FirmwareVersion)
    (upload : FirmwareVersion → Except UploadError Unit) : UpdateResult × Module :=
  match select_update firmwares m.firmware with
  | some (index, _junk) =>
    let fwNew := firmwares.getD index ⟨List.replicate 7 0⟩
    match upload fwNew with
    | .ok _ => let m2 := { m with firmware := fwNew }; (.updated m2, m2)
    | .error e => (.failed e, m)
  | none => (.noUpdate m, m)

/-- The `usize::MAX` sentinel used for `firmware_line_check` on the
first loop iteration. -/
def usizeMax : Nat := 2 ^ 64 - 1

/-- Mutable state of the upload loop in `overwrite_module`: the reused
transmit buffer (47 bytes), the escape receive buffer (61 bytes,
persists across iterations because a failed escape transfer leaves it
untouched), and the four scalar loop variables. -/
structure UploadState where
  txBuf : List Nat
  rxEsc : List Nat
  lineNumber : Nat
  lineCheck : Nat
  messageType : Nat
  errCount : Nat
deriving DecidableEq

/-- Outcome of one iteration of the upload loop: continue with a new
state, abort with `FirmwareCorrupted`, or hit a Rust panic (failed
`unwrap` or out-of-bounds index). -/
inductive StepOut where
  | next (st : UploadState)
  | corrupt
  | panicked
deriving DecidableEq

/-- Embedding of Rust `str::get(a..b)`: `none` when the range is
reversed or runs past the end. -/
def strSlice? (s : List Char) (a b : Nat) : Option (List Char) :=
  if a ≤ b ∧ b ≤ s.length then some ((s.drop a).take (b - a)) else none

/-- Hex-decode `count` consecutive two-character groups of `line`
starting at `start`, as the inner `while` of the frame builder does
(panic, i.e. `none`, on a short line or a non-hex character). -/
def decodePairs (line : List Char) (start : Nat) : Nat → Option (List Nat)
  | 0 => some []
  | k + 1 =>
    match (strSlice? line start (start + 2)).bind parseHexU8 with
    | none => none
    | some b =>
      match decodePairs line (start + 2) k with
      | none => none
      | some bs => some (b :: bs)

/-- Write `bytes` into `buf` at consecutive indices starting at `i`. -/
def writeBytes : List Nat → Nat → List Nat → List Nat
  | buf, _, [] => buf
  | buf, i, b :: bs => writeBytes (buf.set i b) (i + 1) bs

/-- Write the checksum over bytes 0..44 into byte 45, as every frame
builder in the source does last. -/
def sealFrame (buf : List Nat) : List Nat :=
  buf.set 45 (calculate_checksum buf 45)

/-- The constant 61-byte command-49 escape probe frame
(`tx_buf_escape`); only bytes 0, 1, 2 and 45 are ever written. -/
def escTxFrame : List Nat :=
  sealFrame ((((List.replicate 61 0).set 0 49).set 1 45).set 2 49)

/-- The command-29 erase frame built on the zeroed `tx_buf`, carrying the
new software version at bytes 6..9. -/
def eraseFrame (fw : FirmwareVersion) : List Nat :=
  let sw := fw.get_software
  sealFrame (((((((List.replicate 47 0).set 0 29).set 1 45).set 2 29).set
    6 (sw.getD 0 0)).set 7 (sw.getD 1 0)).set 8 (sw.getD 2 0))

/-- The command-19 cancel frame, built in the reused `tx_buf`. -/
def cancelFrame (buf : List Nat) : List Nat :=
  sealFrame (((buf.set 0 19).set 1 45).set 2 19)

/-- The command-49 status probe frame built in the reused `tx_buf`
(bytes 3..44 keep their previous contents). -/
def probeFrame (buf : List Nat) : List Nat :=
  sealFrame (((buf.set 0 49).set 1 45).set 2 49)

/-- The command-39 firmware line frame: line index big-endian at bytes
6..8, record type at byte 8, the hex-decoded line bytes from byte 9. -/
def lineFrame (buf : List Nat) (lineNumber msgType : Nat) (bytes : List Nat) : List Nat :=
  sealFrame (writeBytes
    ((((((buf.set 0 39).set 1 45).set 2 39).set
      6 (lineNumber / 256 % 256)).set 7 (lineNumber % 256)).set 8 msgType)
    9 bytes)

/-- Reply acceptance shared by the line frame and the command-49 gate
probe: local checksum over bytes 0..44 matches byte 45, bytes 6..8 read
big-endian equal the line being checked, and byte 8 equals 1. -/
def acceptableReply (rx : List Nat) (lineCheck : Nat) : Bool :=
  (rx.getD 45 0 == calculate_checksum rx 45)
    && (lineCheck == be16 (rx.getD 6 0) (rx.getD 7 0))
    && (rx.getD 8 0 == 1)

/-- Transmission of the command-39 line frame and the handling of its
reply, lines 636..789 of the source: the tail of a loop iteration after
the terminal-frame gate.  `traceAcc` holds frames already put on the
wire this iteration, `lineR` is the line exchange reply and `escR` the
escape probe exchange reply (used only when a terminal frame was just
accepted); `none` models a transport error. -/
def sendLineStep (st : UploadState) (traceAcc : List (List Nat)) (line : List Char)
    (msgType lineLength : Nat) (lineR escR : Option (List Nat)) :
    StepOut × List (List Nat) :=
  match decodePairs line 2 (lineLength + 1) with
  | none => (.panicked, traceAcc)
  | some bytes =>
    if 47 ≤ 9 + lineLength then (.panicked, traceAcc)
    else
      let tx := lineFrame st.txBuf st.lineNumber msgType bytes
      match lineR with
      | none =>
        let e := (st.errCount + 1) % 256
        if 10 < e then (.corrupt, traceAcc)
        else
          (.next { st with
              txBuf := tx, lineNumber := st.lineCheck,
              lineCheck := st.lineNumber, messageType := 0, errCount := e }, traceAcc)
      | some rx =>
        let trace := traceAcc ++ [tx]
        if st.lineCheck = usizeMax then
          (.next { st with
              txBuf := tx, lineNumber := st.lineNumber + 1,
              lineCheck := 0, messageType := msgType }, trace)
        else if acceptableReply rx st.lineCheck then
          let numCheck :=
            if st.errCount % 2 = 1 then (st.lineCheck, st.lineNumber)
            else (st.lineNumber, st.lineNumber)
          if msgType = 7 then
            let rxe := match escR with
              | some e => e
              | none => st.rxEsc
            let trace2 := match escR with
              | some _ => trace ++ [escTxFrame]
              | none => trace
            let n := rxe.getD 1 0
            if 61 ≤ n then (.panicked, trace2)
            else if rxe.getD n 0 = calculate_checksum rxe n ∧ rxe.getD 6 0 = 20 then
              (.next { st with
                  txBuf := tx, rxEsc := rxe, lineNumber := numCheck.1,
                  lineCheck := numCheck.2, messageType := msgType }, trace2)
            else
              (.next { st with
                  txBuf := tx, rxEsc := rxe, lineNumber := numCheck.1,
                  lineCheck := numCheck.2, messageType := 0 }, trace2)
          else
            (.next { st with
                txBuf := tx, lineNumber := numCheck.1 + 1,
                lineCheck := numCheck.2, messageType := msgType, errCount := 0 }, trace)
        else
          let e := (st.errCount + 1) % 256
          if 10 < e then (.corrupt, trace)
          else
            (.next { st with
                txBuf := tx, lineNumber := st.lineCheck,
                lineCheck := st.lineNumber, messageType := 0, errCount := e }, trace)

/-- One iteration of the upload loop (source lines 591..790): look up and
parse the current line, run the terminal-frame gate (command-49 probe
when the current line has type 7 and its predecessor is un-acked), then
transmit the line frame.  `probeR` is the gate probe reply. -/
def uploadStep (lines : List (List Char)) (st : UploadState)
    (probeR lineR escR : Option (List Nat)) : StepOut × List (List Nat) :=
  match lines.get? st.lineNumber with
  | none => (.panicked, [])
  | some line =>
    match (strSlice? line 1 2).bind parseHexU8 with
    | none => (.panicked, [])
    | some msgType =>
      match (strSlice? line 2 4).bind parseHexU8 with
      | none => (.panicked, [])
      | some lineLength =>
        if msgType = 7 ∧ st.lineCheck ≠ st.lineNumber then
          let tx1 := probeFrame st.txBuf
          match probeR with
          | none =>
            (.next { st with
                txBuf := tx1, lineNumber := st.lineCheck,
                lineCheck := st.lineNumber, messageType := 0,
                errCount := (st.errCount + 1) % 256 }, [])
          | some rx =>
            if acceptableReply rx st.lineCheck then
              sendLineStep { st with txBuf := tx1 } [tx1] line msgType lineLength lineR escR
            else
              (.next { st with
                  txBuf := tx1, lineNumber := st.lineCheck,
                  lineCheck := st.lineNumber, messageType := 0,
                  errCount := (st.errCount + 1) % 256 }, [tx1])
        else
          sendLineStep st [] line msgType lineLength lineR escR

/-- Outcome of running the upload loop to completion, with a fuel bound
standing in for nontermination. -/
inductive RunOut where
  | ok
  | corrupted
  | panicked
  | fuelOut
deriving DecidableEq

/-- The replies consumed by one loop iteration: gate probe reply, line
frame reply, escape probe reply. -/
def ReplyTriple : Type :=
  Option (List Nat) × Option (List Nat) × Option (List Nat)

/-- The upload `while message_type != 7` loop: runs `uploadStep` until
the message type is 7, accumulating the frames put on the wire and
returning the final state. -/
def uploadRun (lines : List (List Char)) :
    Nat → UploadState → List ReplyTriple → RunOut × List (List Nat) × UploadState
  | 0, st, _ => (.fuelOut, [], st)
  | fuel + 1, st, replies =>
    if st.messageType = 7 then (.ok, [], st)
    else
      let r := replies.headD (none, none, none)
      match uploadStep lines st r.1 r.2.1 r.2.2 with
      | (.next st2, tr) =>
        let rest := uploadRun lines fuel st2 replies.tail
        (rest.1, tr ++ rest.2.1, rest.2.2)
      | (.corrupt, tr) => (.corrupted, tr, st)
      | (.panicked, tr) => (.panicked, tr, st)

/-- Result of `overwrite_module` (`Result<(), UploadError>` plus the
non-returning outcomes panic and fuel exhaustion). -/
inductive UploadOutcome where
  | ok
  | untouched (slot : Nat)
  | corrupted (slot : Nat)
  | panicked
  | fuelOut
deriving DecidableEq

/-- Embedding of `Module::overwrite_module`: read the firmware file
(`fileContent`, `none` when the read fails), split it into lines,
bail out with `FirmwareUntouched` on a short file, write the erase
frame (`eraseOk` is that transfer's outcome), then run the upload loop
and finish with the command-19 cancel frame.  The second component is
the trace of frames successfully put on the SPI wire. -/
def overwrite_module (slot : Nat) (new_firmware : FirmwareVersion)
    (fileContent : Option (List Char)) (eraseOk : Bool)
    (replies : List ReplyTriple) (fuel : Nat) : UploadOutcome × List (List Nat) :=
  match fileContent with
  | none => (.untouched slot, [])
  | some content =>
    let lines := rustSplit '\n' content
    if lines.length ≤ 1 then (.untouched slot, [])
    else
      let tx0 := eraseFrame new_firmware
      if eraseOk = false then (.untouched slot, [])
      else
        let st0 : UploadState := ⟨tx0, List.replicate 61 0, 0, usizeMax, 0, 0⟩
        match uploadRun lines fuel st0 replies with
        | (.ok, tr, stf) => (.ok, tx0 :: (tr ++ [cancelFrame stf.txBuf]))
        | (.corrupted, tr, _) => (.corrupted slot, tx0 :: tr)
        | (.panicked, tr, _) => (.panicked, tx0 :: tr)
        | (.fuelOut, tr, _) => (.fuelOut, tx0 :: tr)

/-- Eligibility of a candidate for upgrading a current version, modelled
from the spec wording: equal hardware descriptor, software not the blank
sentinel, and software lexicographically above the current one (or the
current one blank). -/
def specEligible (cur c : FirmwareVersion) : Bool :=
  (c.get_hardware == cur.get_hardware)
    && !(c.get_software == [255, 255, 255])
    && (sliceLt cur.get_software c.get_software || cur.get_software == [255, 255, 255])

/-- A minimal well-formed data record line: type 0, declared length 1,
two hex pairs (decoding to bytes 1 and 66). -/
def lineS0 : List Char := ['S', '0', '0', '1', '4', '2']

/-- A minimal terminal record line: type 7, declared length 1. -/
def lineS7 : List Char := ['S', '7', '0', '1', '4', '2']

/-- An all-zero 47-byte receive buffer. -/
def zeros47 : List Nat := List.replicate 47 0

/-- An all-zero 61-byte escape receive buffer. -/
def zeros61 : List Nat := List.replicate 61 0

/-- A well-formed acknowledgement reply for line `k`: line index
big-endian at bytes 6..8, success marker 1 at byte 8, valid checksum. -/
def ackReply (k : Nat) : List Nat :=
  sealFrame ((((List.replicate 47 0).set 6 (k / 256 % 256)).set 7 (k % 256)).set 8 1)

/-- A sample firmware version used to instantiate theorems. -/
def sampleFw : FirmwareVersion := ⟨[20, 10, 1, 5, 1, 2, 3]⟩

/-- The upload-loop state right after the erase frame has been written:
zeroed escape buffer, line 0, the first-iteration sentinel, no errors. -/
def initState (fw : FirmwareVersion) : UploadState :=
  ⟨eraseFrame fw, List.replicate 61 0, 0, usizeMax, 0, 0⟩

/-! Theorems.  Shared helper lemmas come first, then one theorem per
claim (plus its counterexample or witness where applicable). -/

set_option maxRecDepth 8000 in
theorem parseDecU8_natDecimal : ∀ n < 256, parseDecU8 (natDecimal n) = some n := by
  decide

set_option maxRecDepth 8000 in
theorem dash_not_mem_natDecimal : ∀ n < 256, '-' ∉ natDecimal n := by
  decide

set_option maxRecDepth 8000 in
theorem dot_not_mem_natDecimal : ∀ n < 256, '.' ∉ natDecimal n := by
  decide

theorem rustSplit_sep_not_mem (sep : Char) (s : List Char) (h : sep ∉ s) :
    rustSplit sep s = [s] := by
  induction s with
  | nil => rfl
  | cons c cs ih =>
    rw [List.mem_cons, not_or] at h
    simp only [rustSplit]
    rw [if_neg (fun hc => h.1 hc.symm), ih h.2]

theorem rustSplit_append (sep : Char) (s t : List Char) (h : sep ∉ s) :
    rustSplit sep (s ++ sep :: t) = s :: rustSplit sep t := by
  induction s with
  | nil =>
    simp [rustSplit]
  | cons c cs ih =>
    rw [List.mem_cons, not_or] at h
    simp only [List.cons_append, rustSplit, List.append_eq]
    rw [if_neg (fun hc => h.1 hc.symm), ih h.2]

/-- C9: parsing the filename produced by `as_filename` returns the
original `FirmwareVersion` (round-trip), for any 7 bytes. -/
theorem c9_filename_roundtrip (b0 b1 b2 b3 b4 b5 b6 : Nat)
    (h0 : b0 < 256) (h1 : b1 < 256) (h2 : b2 < 256) (h3 : b3 < 256)
    (h4 : b4 < 256) (h5 : b5 < 256) (h6 : b6 < 256) :
    FirmwareVersion.from_filename
        (FirmwareVersion.as_filename ⟨[b0, b1, b2, b3, b4, b5, b6]⟩) =
      some ⟨[b0, b1, b2, b3, b4, b5, b6]⟩ := by
  have hd0 := dash_not_mem_natDecimal b0 h0
  have hd1 := dash_not_mem_natDecimal b1 h1
  have hd2 := dash_not_mem_natDecimal b2 h2
  have hd3 := dash_not_mem_natDecimal b3 h3
  have hd4 := dash_not_mem_natDecimal b4 h4
  have hd5 := dash_not_mem_natDecimal b5 h5
  have hd6 := dash_not_mem_natDecimal b6 h6
  have hdotX : '.' ∉ FirmwareVersion.as_string ⟨[b0, b1, b2, b3, b4, b5, b6]⟩ := by
    simp only [FirmwareVersion.as_string, List.mem_append, List.mem_cons]
    push_neg
    exact ⟨dot_not_mem_natDecimal b0 h0, by decide,
      dot_not_mem_natDecimal b1 h1, by decide,
      dot_not_mem_natDecimal b2 h2, by decide,
      dot_not_mem_natDecimal b3 h3, by decide,
      dot_not_mem_natDecimal b4 h4, by decide,
      dot_not_mem_natDecimal b5 h5, by decide,
      dot_not_mem_natDecimal b6 h6⟩
  show FirmwareVersion.from_filename
      (FirmwareVersion.as_string ⟨[b0, b1, b2, b3, b4, b5, b6]⟩ ++ ['.', 's', 'r', 'e', 'c']) = _
  unfold FirmwareVersion.from_filename
  rw [show (['.', 's', 'r', 'e', 'c'] : List Char) = '.' :: ['s', 'r', 'e', 'c'] from rfl,
    rustSplit_append '.' _ _ hdotX]
  simp only [List.headD_cons]
  unfold FirmwareVersion.as_string
  simp only [List.getD_cons_zero, List.getD_cons_succ]
  rw [rustSplit_append '-' _ _ hd0, rustSplit_append '-' _ _ hd1,
    rustSplit_append '-' _ _ hd2, rustSplit_append '-' _ _ hd3,
    rustSplit_append '-' _ _ hd4, rustSplit_append '-' _ _ hd5,
    rustSplit_sep_not_mem '-' _ hd6]
  norm_num [fromPartsAux, parseDecU8_natDecimal b0 h0, parseDecU8_natDecimal b1 h1,
    parseDecU8_natDecimal b2 h2, parseDecU8_natDecimal b3 h3,
    parseDecU8_natDecimal b4 h4, parseDecU8_natDecimal b5 h5,
    parseDecU8_natDecimal b6 h6, List.set]

/-- Witness for C9 at a concrete version. -/
theorem c9_filename_roundtrip_witness :
    FirmwareVersion.from_filename
        (FirmwareVersion.as_filename ⟨[20, 10, 1, 5, 0, 0, 9]⟩) =
      some ⟨[20, 10, 1, 5, 0, 0, 9]⟩ :=
  c9_filename_roundtrip 20 10 1 5 0 0 9 (by decide) (by decide) (by decide)
    (by decide) (by decide) (by decide) (by decide)

/-- C1: if reading the firmware file fails or the file splits into at
most one line, `overwrite_module` returns `FirmwareUntouched(slot)` and
no erase frame (command id 29) — indeed no frame at all — is written to
the SPI channel. -/
theorem c1_preflight_untouched (slot : Nat) (fw : FirmwareVersion)
    (fileContent : Option (List Char)) (eraseOk : Bool) (replies : List ReplyTriple)
    (fuel : Nat)
    (h : fileContent = none ∨
      ∃ content, fileContent = some content ∧ (rustSplit '\n' content).length ≤ 1) :
    (overwrite_module slot fw fileContent eraseOk replies fuel).1 = .untouched slot ∧
    ∀ f ∈ (overwrite_module slot fw fileContent eraseOk replies fuel).2,
      f.getD 0 0 ≠ 29 := by
  obtain h | ⟨content, hc, hlen⟩ := h
  · subst h
    exact ⟨rfl, by intro f hf; simp [overwrite_module] at hf⟩
  · subst hc
    refine ⟨?_, ?_⟩
    · simp [overwrite_module, if_pos hlen]
    · intro f hf
      simp [overwrite_module, if_pos hlen] at hf

/-- Witness for C1 at a concrete input: the file read fails. -/
theorem c1_preflight_untouched_witness :
    (overwrite_module 1 sampleFw none true [] 5).1 = .untouched 1 ∧
    ∀ f ∈ (overwrite_module 1 sampleFw none true [] 5).2, f.getD 0 0 ≠ 29 :=
  c1_preflight_untouched 1 sampleFw none true [] 5 (Or.inl rfl)

/-- C6: the code evaluated at the failing input.  On a transport error in
the very first exchange (`line_check` still the `usize::MAX` sentinel)
the engine does not advance to line 1 / check 0; it runs the generic
swap path, which moves `usize::MAX` into `line_number`, and the next
iteration indexes `lines[usize::MAX]`, a Rust panic. -/
theorem c6_first_iteration_transport_error :
    (uploadStep [lineS0, lineS7] (initState sampleFw) none none none).1 =
      .next ⟨lineFrame (eraseFrame sampleFw) 0 0 [1, 66], List.replicate 61 0,
        usizeMax, 0, 0, 1⟩ ∧
    (uploadRun [lineS0, lineS7] 2 (initState sampleFw)
      [(none, none, none), (none, none, none)]).1 = .panicked := by
  constructor
  · decide
  · decide

/-- C7 counterexample: a reply with a valid checksum whose byte 0 is 9
but whose byte 2 is not 9.  The claim says such a reply is rejected
(bytes 0 and 2 are not both 9), but `get_module_info` accepts it: the
source rejects only when *neither* byte equals 9. -/
theorem c7_counterexample :
    Module.get_module_info ⟨1, ⟨List.replicate 7 0⟩, 0, 0, 0⟩ true
      (some (((List.replicate 47 0).set 0 9).set 45 9)) ≠ none := by
  decide

/-- C7 amended: an identify reply is accepted iff its checksum matches
byte 45 and at least one of bytes 0 and 2 equals 9 (the source condition
is `rx[0] != 9 && rx[2] != 9` for rejection); on acceptance the firmware
comes from bytes 6..13 and the manufacturer / QR words big-endian from
13..17, 17..21, 21..25. -/
theorem c7_info_query_acceptance (m : Module) (rx : List Nat) :
    Module.get_module_info m true (some rx) =
      if rx.getD 45 0 = calculate_checksum rx 45 ∧ (rx.getD 0 0 = 9 ∨ rx.getD 2 0 = 9) then
        some { m with
          firmware := ⟨(rx.drop 6).take 7⟩,
          manufacturer := be32 (rx.getD 13 0) (rx.getD 14 0) (rx.getD 15 0) (rx.getD 16 0),
          qr_front := be32 (rx.getD 17 0) (rx.getD 18 0) (rx.getD 19 0) (rx.getD 20 0),
          qr_back := be32 (rx.getD 21 0) (rx.getD 22 0) (rx.getD 23 0) (rx.getD 24 0) }
      else none := by
  simp only [Module.get_module_info]
  rw [if_neg (by simp)]
  by_cases hA : rx.getD 45 0 ≠ calculate_checksum rx 45 ∨ (rx.getD 0 0 ≠ 9 ∧ rx.getD 2 0 ≠ 9)
  · rw [if_pos hA, if_neg (by tauto)]
  · rw [if_neg hA, if_pos (by tauto)]

/-- C10: frame conditions of `update_module`.  On a successful upload
only the cached firmware changes (to the selected candidate); when no
candidate is eligible the session is returned unchanged; on an upload
error the session state at the point of return is still the entry
state. -/
theorem c10_update_module_frame (m : Module) (firmwares : List FirmwareVersion)
    (upload : FirmwareVersion → Except UploadError Unit) :
    (∀ m2, (m.update_module firmwares upload).1 = .updated m2 →
      m2.slot = m.slot ∧ m2.manufacturer = m.manufacturer ∧ m2.qr_front = m.qr_front ∧
      m2.qr_back = m.qr_back ∧ (m.update_module firmwares upload).2 = m2 ∧
      ∃ i sw, select_update firmwares m.firmware = some (i, sw) ∧
        m2.firmware = firmwares.getD i ⟨List.replicate 7 0⟩) ∧
    (∀ m2, (m.update_module firmwares upload).1 = .noUpdate m2 →
      m2 = m ∧ (m.update_module firmwares upload).2 = m) ∧
    (∀ e, (m.update_module firmwares upload).1 = .failed e →
      (m.update_module firmwares upload).2 = m) := by
  rcases hsel : select_update firmwares m.firmware with - | ⟨i, sw⟩
  · simp only [Module.update_module, hsel]
    refine ⟨?_, ?_, ?_⟩
    · intro m2 hm2; exact absurd hm2 (by simp)
    · intro m2 hm2
      injection hm2 with h
      exact ⟨h.symm, trivial⟩
    · intro e he; trivial
  · rcases hup : upload (firmwares.getD i ⟨List.replicate 7 0⟩) with e | u
    · simp only [Module.update_module, hsel, hup]
      refine ⟨?_, ?_, ?_⟩
      · intro m2 hm2; exact absurd hm2 (by simp)
      · intro m2 hm2; exact absurd hm2 (by simp)
      · intro e2 he; trivial
    · simp only [Module.update_module, hsel, hup]
      refine ⟨?_, ?_, ?_⟩
      · intro m2 hm2
        injection hm2 with hm2
        subst hm2
        exact ⟨rfl, rfl, rfl, rfl, rfl, ⟨i, sw, rfl, rfl⟩⟩
      · intro m2 hm2; exact absurd hm2 (by simp)
      · intro e he; exact absurd he (by simp)

/-- Witness for C10 at a concrete input: one eligible candidate, upload
succeeds, only the firmware field changes. -/
theorem c10_update_module_frame_witness :
    (Module.update_module ⟨2, ⟨[1, 2, 3, 4, 5, 5, 5]⟩, 7, 8, 9⟩
        [⟨[1, 2, 3, 4, 9, 9, 9]⟩] (fun _ => .ok ())).2.manufacturer = 7 := by
  have h := (c10_update_module_frame ⟨2, ⟨[1, 2, 3, 4, 5, 5, 5]⟩, 7, 8, 9⟩
    [⟨[1, 2, 3, 4, 9, 9, 9]⟩] (fun _ => .ok ())).1
    ⟨2, ⟨[1, 2, 3, 4, 9, 9, 9]⟩, 7, 8, 9⟩ (by decide)
  rw [h.2.2.2.2.1]

theorem sliceLt_irrefl : ∀ a : List Nat, sliceLt a a = false := by
  intro a
  induction a with
  | nil => rfl
  | cons x xs ih => simp [sliceLt, ih]

theorem sliceLt_trans : ∀ a b c : List Nat,
    sliceLt a b = true → sliceLt b c = true → sliceLt a c = true := by
  intro a
  induction a with
  | nil =>
    intro b c hab hbc
    cases b with
    | nil => simp [sliceLt] at hab
    | cons y ys =>
      cases c with
      | nil => simp [sliceLt] at hbc
      | cons z zs => simp [sliceLt]
  | cons x xs ih =>
    intro b c hab hbc
    cases b with
    | nil => simp [sliceLt] at hab
    | cons y ys =>
      cases c with
      | nil => simp [sliceLt] at hbc
      | cons z zs =>
        simp only [sliceLt] at hab hbc ⊢
        split_ifs at hab hbc ⊢ <;>
          first
            | rfl
            | omega
            | exact ih ys zs hab hbc

theorem sliceLt_false_trans : ∀ a b c : List Nat,
    sliceLt a b = false → sliceLt b c = false → sliceLt a c = false := by
  intro a
  induction a with
  | nil =>
    intro b c hab hbc
    cases b with
    | nil =>
      cases c with
      | nil => rfl
      | cons z zs => simp [sliceLt] at hbc
    | cons y ys => simp [sliceLt] at hab
  | cons x xs ih =>
    intro b c hab hbc
    cases b with
    | nil =>
      cases c with
      | nil => rfl
      | cons z zs => simp [sliceLt] at hbc
    | cons y ys =>
      cases c with
      | nil => rfl
      | cons z zs =>
        simp only [sliceLt] at hab hbc ⊢
        split_ifs at hab hbc ⊢ <;>
          first
            | rfl
            | omega
            | exact ih ys zs hab hbc

/-- The `reduce` step of the update policy keeps the running maximum. -/
theorem reduceFold_mem (x : Nat × List Nat) (xs : List (Nat × List Nat)) :
    xs.foldl (fun acc y => if sliceLt acc.2 y.2 then y else acc) x ∈ x :: xs := by
  induction xs generalizing x with
  | nil => simp
  | cons y ys ih =>
    simp only [List.foldl_cons]
    by_cases h : sliceLt x.2 y.2 = true
    · rw [if_pos h]
      rcases List.mem_cons.mp (ih y) with h1 | h1
      · simp [h1]
      · exact List.mem_cons_of_mem _ (List.mem_cons_of_mem _ h1)
    · rw [if_neg h]
      rcases List.mem_cons.mp (ih x) with h1 | h1
      · simp [h1]
      · exact List.mem_cons_of_mem _ (List.mem_cons_of_mem _ h1)

/-- No element of the reduced list compares strictly above the result of
the `reduce` step. -/
theorem reduceFold_max (x : Nat × List Nat) (xs : List (Nat × List Nat)) :
    ∀ z ∈ x :: xs,
      sliceLt (xs.foldl (fun acc y => if sliceLt acc.2 y.2 then y else acc) x).2 z.2
        = false := by
  induction xs generalizing x with
  | nil =>
    intro z hz
    rcases List.mem_cons.mp hz with h | h
    · rw [h]; exact sliceLt_irrefl _
    · cases h
  | cons y ys ih =>
    intro z hz
    simp only [List.foldl_cons]
    by_cases h : sliceLt x.2 y.2 = true
    · rw [if_pos h]
      rcases List.mem_cons.mp hz with h1 | h1
      · rw [h1]
        cases hrx : sliceLt (ys.foldl (fun acc y => if sliceLt acc.2 y.2 then y else acc) y).2 x.2 with
        | false => rfl
        | true =>
          have h2 := sliceLt_trans _ _ _ hrx h
          have h3 := ih y y (List.mem_cons_self y ys)
          rw [h2] at h3
          exact h3
      · exact ih y z h1
    · rw [if_neg h]
      have hyx : sliceLt x.2 y.2 = false := by
        cases hxy : sliceLt x.2 y.2 with
        | false => rfl
        | true => exact absurd hxy h
      rcases List.mem_cons.mp hz with h1 | h1
      · rw [h1]; exact ih x x (List.mem_cons_self _ _)
      · rcases List.mem_cons.mp h1 with h2 | h2
        · rw [h2]
          exact sliceLt_false_trans _ _ _ (ih x x (List.mem_cons_self _ _)) hyx
        · exact ih x z (List.mem_cons.mpr (Or.inr h2))

theorem specEligible_eq_filters (cur c : FirmwareVersion) :
    specEligible cur c =
      ((c.get_hardware == cur.get_hardware)
        && ((sliceLt cur.get_software c.get_software
              || cur.get_software == [255, 255, 255])
            && !(c.get_software == [255, 255, 255]))) := by
  cases hA : (c.get_hardware == cur.get_hardware) <;>
    cases hB : (sliceLt cur.get_software c.get_software) <;>
      cases hC : (cur.get_software == [255, 255, 255]) <;>
        cases hD : (c.get_software == [255, 255, 255]) <;>
          simp [specEligible, hA, hB, hC, hD]

/-- Membership in the mapped candidate list built inside
`select_update`. -/
theorem mem_selectCandidates_iff (firmwares : List FirmwareVersion)
    (cur : FirmwareVersion) (i : Nat) (sw : List Nat) :
    (i, sw) ∈ (((firmwares.enum.filter
          (fun p => p.2.get_hardware == cur.get_hardware)).filter
          (fun p => (sliceLt cur.get_software p.2.get_software
                || cur.get_software == [255, 255, 255])
              && !(p.2.get_software == [255, 255, 255]))).map
          (fun p => (p.1, p.2.get_software))) ↔
      ∃ c, firmwares.get? i = some c ∧ specEligible cur c = true ∧
        sw = c.get_software := by
  constructor
  · intro hm
    obtain ⟨⟨j, c⟩, hp, heq⟩ := List.mem_map.mp hm
    obtain ⟨hp1, hq2⟩ := List.mem_filter.mp hp
    obtain ⟨hpe, hq1⟩ := List.mem_filter.mp hp1
    injection heq with heqi heqs
    refine ⟨c, ?_, ?_, heqs.symm⟩
    · rw [← heqi]
      exact List.mk_mem_enum_iff_get?.mp hpe
    · rw [specEligible_eq_filters]
      simp only at hq1 hq2
      rw [hq1, hq2]
      rfl
  · rintro ⟨c, hget, helig, hsw⟩
    rw [specEligible_eq_filters] at helig
    have h1 : (c.get_hardware == cur.get_hardware) = true := by
      cases hA : (c.get_hardware == cur.get_hardware) with
      | false => rw [hA] at helig; simp at helig
      | true => rfl
    have h2 : ((sliceLt cur.get_software c.get_software
          || cur.get_software == [255, 255, 255])
        && !(c.get_software == [255, 255, 255])) = true := by
      rw [h1] at helig
      simpa using helig
    refine List.mem_map.mpr ⟨(i, c), ?_, by rw [hsw]⟩
    refine List.mem_filter.mpr ⟨List.mem_filter.mpr ⟨?_, h1⟩, h2⟩
    exact List.mk_mem_enum_iff_get?.mpr hget

theorem reduceCandidates_eq_none_iff (l : List (Nat × List Nat)) :
    reduceCandidates l = none ↔ l = [] := by
  cases l <;> simp [reduceCandidates]

theorem reduceCandidates_some (l : List (Nat × List Nat)) (x : Nat × List Nat)
    (h : reduceCandidates l = some x) :
    x ∈ l ∧ ∀ z ∈ l, sliceLt x.2 z.2 = false := by
  cases l with
  | nil => cases h
  | cons y ys =>
    injection h with h
    refine ⟨?_, ?_⟩
    · rw [← h]; exact reduceFold_mem y ys
    · intro z hz; rw [← h]; exact reduceFold_max y ys z hz

/-- C8: the update policy dispatches an upload iff some candidate is
eligible (equal hardware, non-blank software, software above the current
one or the current one blank), the selected candidate is eligible and
carries the lexicographically greatest software of the eligible set, and
with no eligible candidate `update_module` reports no update. -/
theorem c8_update_policy (firmwares : List FirmwareVersion) (cur : FirmwareVersion) :
    (select_update firmwares cur = none ↔
      firmwares.filter (specEligible cur) = []) ∧
    (∀ i sw, select_update firmwares cur = some (i, sw) →
      ∃ c, firmwares.get? i = some c ∧ specEligible cur c = true ∧
        sw = c.get_software ∧
        ∀ d ∈ firmwares, specEligible cur d = true →
          sliceLt sw d.get_software = false) ∧
    (∀ (m : Module) (upload : FirmwareVersion → Except UploadError Unit),
      m.firmware = cur →
        ((m.update_module firmwares upload).1 = .noUpdate m ↔
          firmwares.filter (specEligible cur) = [])) := by
  have hmem := mem_selectCandidates_iff firmwares cur
  have hempty : (((firmwares.enum.filter
        (fun p => p.2.get_hardware == cur.get_hardware)).filter
        (fun p => (sliceLt cur.get_software p.2.get_software
              || cur.get_software == [255, 255, 255])
            && !(p.2.get_software == [255, 255, 255]))).map
        (fun p => (p.1, p.2.get_software))) = [] ↔
      firmwares.filter (specEligible cur) = [] := by
    rw [List.eq_nil_iff_forall_not_mem, List.eq_nil_iff_forall_not_mem]
    constructor
    · intro h c hc
      obtain ⟨hcf, helig⟩ := List.mem_filter.mp hc
      obtain ⟨i, hget⟩ := List.mem_iff_get?.mp hcf
      exact h (i, c.get_software) ((hmem i c.get_software).mpr ⟨c, hget, helig, rfl⟩)
    · intro h p hp
      obtain ⟨c, hget, helig, -⟩ := (hmem p.1 p.2).mp hp
      exact h c (List.mem_filter.mpr ⟨List.get?_mem hget, helig⟩)
  have hnone : select_update firmwares cur = none ↔
      firmwares.filter (specEligible cur) = [] := by
    rw [← hempty]
    unfold select_update
    exact reduceCandidates_eq_none_iff _
  refine ⟨hnone, ?_, ?_⟩
  · intro i sw hsel
    unfold select_update at hsel
    obtain ⟨hmem2, hmax⟩ := reduceCandidates_some _ _ hsel
    obtain ⟨c, hget, helig, hsw⟩ := (hmem i sw).mp hmem2
    refine ⟨c, hget, helig, hsw, ?_⟩
    intro d hd heligd
    obtain ⟨j, hgetj⟩ := List.mem_iff_get?.mp hd
    exact hmax (j, d.get_software) ((hmem j d.get_software).mpr ⟨d, hgetj, heligd, rfl⟩)
  · intro m upload hfw
    subst hfw
    rcases hsel : select_update firmwares m.firmware with - | ⟨i, sw⟩
    · simp only [Module.update_module, hsel]
      simpa using hnone.mp hsel
    · rcases hup : upload (firmwares.getD i ⟨List.replicate 7 0⟩) with e | u
      · simp only [Module.update_module, hsel, hup]
        constructor
        · intro hcontr; exact absurd hcontr (by simp)
        · intro hfil
          exact absurd (hnone.mpr hfil) (by simp [hsel])
      · simp only [Module.update_module, hsel, hup]
        constructor
        · intro hcontr; exact absurd hcontr (by simp)
        · intro hfil
          exact absurd (hnone.mpr hfil) (by simp [hsel])

/-- Witness for C8 at a concrete candidate set with two eligible
upgrades; the greater one is selected. -/
theorem c8_update_policy_witness :
    ∃ c, [⟨[1, 2, 3, 4, 0, 0, 5]⟩, ⟨[1, 2, 3, 4, 0, 0, 9]⟩,
        (⟨[9, 9, 9, 9, 0, 0, 7]⟩ : FirmwareVersion)].get? 1 = some c ∧
      specEligible ⟨[1, 2, 3, 4, 0, 0, 1]⟩ c = true ∧
      [0, 0, 9] = c.get_software ∧
      ∀ d ∈ [⟨[1, 2, 3, 4, 0, 0, 5]⟩, ⟨[1, 2, 3, 4, 0, 0, 9]⟩,
          (⟨[9, 9, 9, 9, 0, 0, 7]⟩ : FirmwareVersion)],
        specEligible ⟨[1, 2, 3, 4, 0, 0, 1]⟩ d = true →
          sliceLt [0, 0, 9] d.get_software = false :=
  (c8_update_policy [⟨[1, 2, 3, 4, 0, 0, 5]⟩, ⟨[1, 2, 3, 4, 0, 0, 9]⟩,
      ⟨[9, 9, 9, 9, 0, 0, 7]⟩] ⟨[1, 2, 3, 4, 0, 0, 1]⟩).2.1 1 [0, 0, 9] (by decide)

theorem sendLineStep_corrupt (st : UploadState) (traceAcc : List (List Nat))
    (line : List Char) (msgType lineLength : Nat) (lineR escR : Option (List Nat))
    (h : (sendLineStep st traceAcc line msgType lineLength lineR escR).1 = .corrupt) :
    10 < (st.errCount + 1) % 256 := by
  simp only [sendLineStep] at h
  repeat' split at h
  all_goals first | assumption | simp_all

set_option maxHeartbeats 2000000 in
theorem uploadStep_corrupt (lines : List (List Char)) (st : UploadState)
    (probeR lineR escR : Option (List Nat))
    (h : (uploadStep lines st probeR lineR escR).1 = .corrupt) :
    10 < (st.errCount + 1) % 256 := by
  simp only [uploadStep] at h
  repeat' split at h
  all_goals
    first
      | exact sendLineStep_corrupt _ _ _ _ _ _ _ h
      | simpa using sendLineStep_corrupt _ _ _ _ _ _ _ h
      | simp_all

/-- C2 counterexample: a reachable run (two-line file, alternating
status-probe transport errors and unacceptable line replies) in which
the loop is still running after twelve iterations with `err_count = 11`:
the terminal-frame gate increments the error counter without the cap
check, so the engine neither stays at `err_count ≤ 10` nor aborts. -/
theorem c2_counterexample :
    (uploadRun [lineS0, lineS7] 12 (initState sampleFw)
        (List.replicate 12 ((none, some zeros47, none) : ReplyTriple))).1 = .fuelOut ∧
    (uploadRun [lineS0, lineS7] 12 (initState sampleFw)
        (List.replicate 12 ((none, some zeros47, none) : ReplyTriple))).2.2.errCount
      = 11 := by
  constructor
  · decide
  · decide

/-- C2 amended: after the erase the only surfaced error is
`FirmwareCorrupted`; the loop aborts only when an error increment on the
line-frame path pushes the counter above 10 (the status-probe retry path
increments without the cap check, so the counter can pass 10 while the
loop keeps running). -/
theorem c2_error_surface :
    (∀ (lines : List (List Char)) (st : UploadState) (pr lr er : Option (List Nat)),
      (uploadStep lines st pr lr er).1 = .corrupt → 10 < (st.errCount + 1) % 256) ∧
    (∀ (slot : Nat) (fw : FirmwareVersion) (content : List Char)
        (replies : List ReplyTriple) (fuel s : Nat),
      1 < (rustSplit '\n' content).length →
        (overwrite_module slot fw (some content) true replies fuel).1 ≠ .untouched s) := by
  constructor
  · intro lines st pr lr er h
    exact uploadStep_corrupt lines st pr lr er h
  · intro slot fw content replies fuel s hlen h
    simp only [overwrite_module] at h
    rw [if_neg (not_le.mpr hlen), if_neg (by simp)] at h
    split at h <;> simp_all

/-- Witness for C2's amended theorem at concrete inputs: a corrupt abort
implies the counter crossed 10, and a post-erase run never surfaces
`FirmwareUntouched`. -/
theorem c2_error_surface_witness :
    10 < (10 + 1) % 256 ∧
    (overwrite_module 1 sampleFw (some (lineS0 ++ '\n' :: lineS7)) true [] 1).1 ≠
      .untouched 1 := by
  constructor
  · exact c2_error_surface.1 [lineS0] ⟨zeros47, zeros61, 0, 0, 0, 10⟩ none
      (some zeros47) none (by decide)
  · exact c2_error_surface.2 1 sampleFw (lineS0 ++ '\n' :: lineS7) [] 1 1 (by decide)

/-- C3: in a data-line iteration past the first (`line_check` not the
sentinel, record type not 7), the reply is accepted iff the recomputed
checksum over bytes 0..44 equals byte 45, bytes 6..8 big-endian equal
`line_check`, and byte 8 equals 1; on an unacceptable reply or a
transport error the indices are swapped, `message_type` becomes 0
(non-terminal) and `err_count` grows by exactly 1 (aborting when the cap
is crossed, claim C2). -/
theorem c3_line_reply_acceptance (lines : List (List Char)) (st : UploadState)
    (line : List Char) (msgType lineLength : Nat) (bytes : List Nat)
    (hline : lines.get? st.lineNumber = some line)
    (htype : (strSlice? line 1 2).bind parseHexU8 = some msgType)
    (hlen : (strSlice? line 2 4).bind parseHexU8 = some lineLength)
    (hdec : decodePairs line 2 (lineLength + 1) = some bytes)
    (hfits : 9 + lineLength < 47)
    (hnot7 : msgType ≠ 7)
    (hsent : st.lineCheck ≠ usizeMax)
    (herr : st.errCount < 255) :
    ∀ probeR escR,
      (uploadStep lines st probeR none escR =
        (if 10 < st.errCount + 1 then (.corrupt, [])
         else
          (.next { st with
              txBuf := lineFrame st.txBuf st.lineNumber msgType bytes,
              lineNumber := st.lineCheck, lineCheck := st.lineNumber,
              messageType := 0, errCount := st.errCount + 1 }, []))) ∧
      ∀ rx,
        uploadStep lines st probeR (some rx) escR =
          (if acceptableReply rx st.lineCheck then
            (.next { st with
                txBuf := lineFrame st.txBuf st.lineNumber msgType bytes,
                lineNumber :=
                  (if st.errCount % 2 = 1 then st.lineCheck else st.lineNumber) + 1,
                lineCheck := st.lineNumber,
                messageType := msgType, errCount := 0 },
              [lineFrame st.txBuf st.lineNumber msgType bytes])
           else if 10 < st.errCount + 1 then
            (.corrupt, [lineFrame st.txBuf st.lineNumber msgType bytes])
           else
            (.next { st with
                txBuf := lineFrame st.txBuf st.lineNumber msgType bytes,
                lineNumber := st.lineCheck, lineCheck := st.lineNumber,
                messageType := 0, errCount := st.errCount + 1 },
              [lineFrame st.txBuf st.lineNumber msgType bytes])) := by
  intro probeR escR
  have hgate : ¬(msgType = 7 ∧ st.lineCheck ≠ st.lineNumber) := fun hc => hnot7 hc.1
  have hmod : (st.errCount + 1) % 256 = st.errCount + 1 :=
    Nat.mod_eq_of_lt (by omega)
  constructor
  · unfold uploadStep
    simp only [hline, htype, hlen]
    rw [if_neg hgate]
    unfold sendLineStep
    simp only [hdec]
    rw [if_neg (by omega), hmod]
  · intro rx
    unfold uploadStep
    simp only [hline, htype, hlen]
    rw [if_neg hgate]
    unfold sendLineStep
    simp only [hdec]
    rw [if_neg (by omega)]
    simp only [List.nil_append]
    rw [if_neg hsent]
    by_cases hacc : acceptableReply rx st.lineCheck = true
    · rw [if_pos hacc, if_pos hacc, if_neg hnot7]
      by_cases hodd : st.errCount % 2 = 1
      · rw [if_pos hodd, if_pos hodd]
      · rw [if_neg hodd, if_neg hodd]
    · rw [if_neg hacc, if_neg hacc, hmod]

/-- Witness for C3 at a concrete unacceptable reply (byte 8 is 0): the
indices swap, the type resets and the counter becomes 1. -/
theorem c3_line_reply_acceptance_witness :
    uploadStep [lineS0] ⟨zeros47, zeros61, 0, 0, 0, 0⟩ none (some zeros47) none =
      (.next ⟨lineFrame zeros47 0 0 [1, 66], zeros61, 0, 0, 0, 1⟩,
        [lineFrame zeros47 0 0 [1, 66]]) := by
  have h := (c3_line_reply_acceptance [lineS0] ⟨zeros47, zeros61, 0, 0, 0, 0⟩ lineS0 0 1
    [1, 66] (by decide) (by decide) (by decide) (by decide) (by decide) (by decide)
    (by decide) (by decide) none none).2 zeros47
  rw [h]
  decide

/-- C4 counterexample: with the current line of type 7, `line_check = 0`
and `line_number = 1`, an acceptable probe reply makes the engine send
the command-39 type-7 line frame in the same iteration, right after the
command-49 probe and still with `line_check ≠ line_number` — the claim
says the probe is sent *instead* and that a type-7 frame is only ever
sent when the indices agree. -/
theorem c4_counterexample :
    ((uploadStep [lineS0, lineS7] ⟨zeros47, zeros61, 1, 0, 0, 0⟩
        (some (ackReply 0)) (some (ackReply 0)) none).2.map
          (fun f => (f.getD 0 0, f.getD 8 0))) = [(49, 0), (39, 7)] := by
  decide

/-- C4 amended: when the current line has type 7 and the predecessor is
un-acked, a command-49 probe goes out first; on a transport error or an
unacceptable probe reply the indices swap and the iteration retries
without the line frame; on an acceptable probe reply the engine
proceeds, in the same iteration, to transmit the type-7 command-39
frame (the indices still unequal — the probe confirms but does not
update `line_check`). -/
theorem c4_terminal_gate (lines : List (List Char)) (st : UploadState)
    (line : List Char) (lineLength : Nat) (lr er : Option (List Nat))
    (hline : lines.get? st.lineNumber = some line)
    (htype : (strSlice? line 1 2).bind parseHexU8 = some 7)
    (hlen : (strSlice? line 2 4).bind parseHexU8 = some lineLength)
    (hgate : st.lineCheck ≠ st.lineNumber) :
    (uploadStep lines st none lr er =
      (.next { st with
          txBuf := probeFrame st.txBuf, lineNumber := st.lineCheck,
          lineCheck := st.lineNumber, messageType := 0,
          errCount := (st.errCount + 1) % 256 }, [])) ∧
    (∀ rx, acceptableReply rx st.lineCheck = false →
      uploadStep lines st (some rx) lr er =
        (.next { st with
            txBuf := probeFrame st.txBuf, lineNumber := st.lineCheck,
            lineCheck := st.lineNumber, messageType := 0,
            errCount := (st.errCount + 1) % 256 }, [probeFrame st.txBuf])) ∧
    (∀ rx, acceptableReply rx st.lineCheck = true →
      uploadStep lines st (some rx) lr er =
        sendLineStep { st with txBuf := probeFrame st.txBuf } [probeFrame st.txBuf]
          line 7 lineLength lr er ∧
      ∀ r2 bytes, lr = some r2 → decodePairs line 2 (lineLength + 1) = some bytes →
        9 + lineLength < 47 →
          ∃ rest, (uploadStep lines st (some rx) lr er).2 =
            probeFrame st.txBuf ::
              lineFrame (probeFrame st.txBuf) st.lineNumber 7 bytes :: rest) := by
  have hg : True ∧ st.lineCheck ≠ st.lineNumber := ⟨trivial, hgate⟩
  refine ⟨?_, ?_, ?_⟩
  · unfold uploadStep
    simp only [hline, htype, hlen]
    rw [if_pos hg]
  · intro rx hacc
    unfold uploadStep
    simp only [hline, htype, hlen]
    rw [if_pos hg, if_neg (by rw [hacc]; exact Bool.false_ne_true)]
  · intro rx hacc
    have heq : uploadStep lines st (some rx) lr er =
        sendLineStep { st with txBuf := probeFrame st.txBuf } [probeFrame st.txBuf]
          line 7 lineLength lr er := by
      unfold uploadStep
      simp only [hline, htype, hlen]
      rw [if_pos hg, if_pos hacc]
    refine ⟨heq, ?_⟩
    intro r2 bytes hlr hdec hfits
    subst hlr
    rw [heq]
    unfold sendLineStep
    simp only [hdec]
    rw [if_neg (by omega)]
    repeat' split
    all_goals exact ⟨_, rfl⟩

/-- Witness for C4 at a concrete unacceptable probe reply: only the
command-49 probe is transmitted and the iteration retries with swapped
indices. -/
theorem c4_terminal_gate_witness :
    uploadStep [lineS0, lineS7] ⟨zeros47, zeros61, 1, 0, 0, 0⟩ (some zeros47) none none =
      (.next ⟨probeFrame zeros47, zeros61, 0, 1, 0, 1⟩, [probeFrame zeros47]) := by
  have h := (c4_terminal_gate [lineS0, lineS7] ⟨zeros47, zeros61, 1, 0, 0, 0⟩ lineS7 1
    none none (by decide) (by decide) (by decide) (by decide)).2.1 zeros47 (by decide)
  rw [h]
  decide

/-- C5 counterexample: after an accepted type-7 frame, a bootloader-less
escape reply (checksum valid at its declared length, byte 6 not 20)
makes the engine reset `message_type` to 0 and nothing else — the error
counter stays 0 and the indices stay put, where the claim demands a swap
and an increment. -/
theorem c5_counterexample :
    (uploadStep [lineS0, lineS7] ⟨zeros47, zeros61, 1, 1, 0, 0⟩
        none (some (ackReply 1)) (some zeros61)).1 =
      .next ⟨lineFrame zeros47 1 7 [1, 66], zeros61, 1, 1, 0, 0⟩ := by
  decide

/-- C5 amended: after the type-7 frame is accepted the engine sends the
61-byte command-49 escape probe and inspects the 61-byte reply, with the
checksum validated at the reply's self-declared length byte 1; if that
checksum matches and byte 6 equals 20 the loop exits successfully
(`message_type` stays 7); otherwise only `message_type` is reset to 0 so
the terminal frame is re-attempted — the indices and the error counter
are left unchanged. -/
theorem c5_escape_probe (lines : List (List Char)) (st : UploadState)
    (line : List Char) (bytes : List Nat) (lineLength : Nat) (rx e : List Nat)
    (hline : lines.get? st.lineNumber = some line)
    (htype : (strSlice? line 1 2).bind parseHexU8 = some 7)
    (hlen : (strSlice? line 2 4).bind parseHexU8 = some lineLength)
    (hdec : decodePairs line 2 (lineLength + 1) = some bytes)
    (hfits : 9 + lineLength < 47)
    (hidx : st.lineCheck = st.lineNumber)
    (hsent : st.lineCheck ≠ usizeMax)
    (hacc : acceptableReply rx st.lineCheck = true)
    (hn : e.getD 1 0 < 61) :
    (uploadStep lines st none (some rx) (some e) =
      (if e.getD (e.getD 1 0) 0 = calculate_checksum e (e.getD 1 0) ∧ e.getD 6 0 = 20 then
        (.next { st with
            txBuf := lineFrame st.txBuf st.lineNumber 7 bytes, rxEsc := e,
            lineNumber := st.lineNumber, lineCheck := st.lineNumber, messageType := 7 },
          [lineFrame st.txBuf st.lineNumber 7 bytes, escTxFrame])
       else
        (.next { st with
            txBuf := lineFrame st.txBuf st.lineNumber 7 bytes, rxEsc := e,
            lineNumber := st.lineNumber, lineCheck := st.lineNumber, messageType := 0 },
          [lineFrame st.txBuf st.lineNumber 7 bytes, escTxFrame]))) ∧
    ∀ (fuel : Nat) (st2 : UploadState) (replies : List ReplyTriple),
      st2.messageType = 7 → uploadRun lines (fuel + 1) st2 replies = (.ok, [], st2) := by
  have hgate : ¬(True ∧ st.lineCheck ≠ st.lineNumber) := fun hc => hc.2 hidx
  constructor
  · unfold uploadStep
    simp only [hline, htype, hlen]
    rw [if_neg hgate]
    unfold sendLineStep
    simp only [hdec]
    rw [if_neg (by omega)]
    simp only [List.nil_append]
    rw [if_neg hsent, if_pos hacc, hidx, ite_self, if_pos trivial,
      if_neg (show ¬61 ≤ e.getD 1 0 by omega)]
    rfl
  · intro fuel st2 replies h7
    unfold uploadRun
    rw [if_pos h7]

/-- Witness for C5 at a concrete bootloader escape reply (byte 6 = 20):
the loop exits with `message_type` 7 and the counter untouched. -/
theorem c5_escape_probe_witness :
    uploadStep [lineS0, lineS7] ⟨zeros47, zeros61, 1, 1, 0, 0⟩ none (some (ackReply 1))
        (some ((List.replicate 61 0).set 6 20)) =
      (.next ⟨lineFrame zeros47 1 7 [1, 66], (List.replicate 61 0).set 6 20, 1, 1, 7, 0⟩,
        [lineFrame zeros47 1 7 [1, 66], escTxFrame]) := by
  have h := (c5_escape_probe [lineS0, lineS7] ⟨zeros47, zeros61, 1, 1, 0, 0⟩ lineS7 [1, 66]
    1 (ackReply 1) ((List.replicate 61 0).set 6 20) (by decide) (by decide) (by decide)
    (by decide) (by decide) (by decide) (by decide) (by decide) (by decide)).1
  rw [h]
  decide

end GoModules
